import Mathlib

/-!
Verification of the nexus-cli core: the pagination traversal engine
(`src/contexts/commands.py`, command `contexts`) and the optimistic-update
controller (`src/nexuscli/orgs.py`, commands `fetch`, `update`, `select`).

Shallow embedding conventions:
* A Python/JSON dict is an association list with unique keys, in insertion
  order (`Resource`).  `d[k]` is `lookupKey`, `d[k] = v` is `setKey`
  (replace in place, else append — CPython dict semantics).
* The service endpoint client is a function from URL to a parsed response;
  a fetch that raises `HTTPError` is `Except.error status`.
* `md5` is modelled as an injective digest, so comparing two md5 hex
  digests is modelled as comparing the serialized texts that were hashed.
* `utils.error` (module `utils`, not among the repository files) terminates
  the process; see `orgsSelect`.
* Loops driven by the service (`while data_url is not None`) take a fuel
  parameter; running out of fuel is the distinct outcome `outOfFuel`, never
  confused with the program's own outcomes.
-/

namespace NexusCli

/-- A JSON scalar value as stored in a resource's fields. -/
inductive JValue where
  | str (s : String)
  | int (n : Int)
  | bool (b : Bool)
  | null
deriving DecidableEq

/-- A Python dict holding a JSON object: association list in insertion
order, keys unique. -/
abbrev Resource := List (String × JValue)

/-- `d[k]` read access: first binding of `k` (unique by invariant). -/
def lookupKey (k : String) : Resource → Option JValue
  | [] => none
  | (k', v) :: rest => if k' = k then some v else lookupKey k rest

/-- `d[k] = v`: replace the binding of `k` in place, else append
(CPython dict assignment). -/
def setKey (k : String) (v : JValue) : Resource → Resource
  | [] => [(k, v)]
  | (k', v') :: rest => if k' = k then (k, v) :: rest else (k', v') :: setKey k v rest

/-- Lexicographic comparison of character lists by code point: how Python
orders the key strings compared by `sorted`. -/
def charListLe : List Char → List Char → Bool
  | [], _ => true
  | _ :: _, [] => false
  | c :: cs, d :: ds =>
    if c.toNat < d.toNat then true
    else if d.toNat < c.toNat then false
    else charListLe cs ds

/-- Python string comparison `a <= b` (code-point lexicographic). -/
def strLe (a b : String) : Bool := charListLe a.data b.data

/-- Ordering of dict items used by `sorted(data.items())`: Python compares
the `(key, value)` tuples key first, and keys are unique, so this is a
sort by key. -/
def keyLe (a b : String × JValue) : Prop := strLe a.1 b.1 = true

instance : DecidableRel keyLe := fun a b => inferInstanceAs (Decidable (strLe a.1 b.1 = true))

/-- `OrderedDict(sorted(data.items()))`. -/
def sortItems (d : Resource) : Resource := List.insertionSort keyLe d

/-- `json.dumps` of one scalar. -/
def dumpJValue : JValue → String
  | .str s => "\"" ++ s ++ "\""
  | .int n => toString n
  | .bool b => if b then "true" else "false"
  | .null => "null"

/-- `json.dumps(..., indent=2)` body lines for the item list. -/
def dumpItems : List (String × JValue) → String
  | [] => ""
  | (k, v) :: rest =>
    "\n  \"" ++ k ++ "\": " ++ dumpJValue v ++ (if rest = [] then "" else ",") ++ dumpItems rest

/-- `json.dumps(d, indent=2)` for an (ordered) dict. -/
def jsonDumps (d : Resource) : String := "\x7b" ++ dumpItems d ++ "\n\x7d"

/-- `hashlib.md5(json.dumps(OrderedDict(sorted(data.items())), indent=2)
.encode('utf-8')).hexdigest()`: md5 is modelled as an injective digest, so
the fingerprint is the canonical serialization itself, and digest equality
is serialization equality. -/
def canonicalFingerprint (d : Resource) : String := jsonDumps (sortItems d)

/-- Network mutation surface of the orgs commands. -/
inductive OrgCall where
  | fetchOrg (label : String)
  | putOrg (org : Resource) (previousRev : JValue)
deriving DecidableEq

/-- Terminal outcome of `orgs update`. -/
inductive UpdateOutcome where
  | noChange
  | updated
  | keyError (k : String)
  | httpError (status : Nat)
deriving DecidableEq

/-- The new desired state derived in `update` (orgs.py lines 64-82): field
overrides when a raw payload is absent and at least one override is given;
else the raw payload when given; else the externally edited content (the
temp-file editor round trip, injected here as `edited`). -/
def deriveNewState (data : Resource) (payloadOpt : Option Resource)
    (name description : Option String) (edited : Resource) : Resource :=
  if payloadOpt.isNone && (name.isSome || description.isSome) then
    let d1 := match name with
      | some n => setKey "name" (.str n) data
      | none => data
    match description with
      | some s => setKey "description" (.str s) d1
      | none => d1
  else
    match payloadOpt with
    | some p => p
    | none => edited

/-- `orgs update` (orgs.py lines 56-93).  `fetched` is the result of
`nxs.organizations.fetch(org_label=label)`; `payloadOpt` the parsed
`--data` option; `edited` the content read back from the editor.  Returns
the network calls issued and the outcome. -/
def orgsUpdate (label : String) (fetched : Except Nat Resource)
    (payloadOpt : Option Resource) (name description : Option String)
    (edited : Resource) : List OrgCall × UpdateOutcome :=
  match fetched with
  | .error s => ([.fetchOrg label], .httpError s)
  | .ok data =>
    match lookupKey "_rev" data with
    | none => ([.fetchOrg label], .keyError "_rev")
    | some currentRevision =>
      let before := canonicalFingerprint data
      let newData := deriveNewState data payloadOpt name description edited
      let after := canonicalFingerprint newData
      if before = after then ([.fetchOrg label], .noChange)
      else ([.fetchOrg label, .putOrg newData currentRevision], .updated)

/-- Terminal outcome of `orgs fetch`. -/
inductive FetchOutcome where
  | printed (r : Resource)
  | revisionMismatch (msg : String)
  | keyError (k : String)
  | httpError (status : Nat)
deriving DecidableEq

/-- Python `response["_rev"] != revision` negated: a JSON value equals an
int only when it is that number. -/
def jvalueEqInt : JValue → Int → Bool
  | .int m, n => m == n
  | _, _ => false

/-- `orgs fetch` (orgs.py lines 21-30): on success, if a revision was
requested and the returned resource's `_rev` differs, fail with the
revision-mismatch error naming the requested revision. -/
def orgsFetch (fetched : Except Nat Resource) (revision : Option Int) : FetchOutcome :=
  match fetched with
  | .error s => .httpError s
  | .ok response =>
    match revision with
    | none => .printed response
    | some rev =>
      match lookupKey "_rev" response with
      | none => .keyError "_rev"
      | some rv =>
        if jvalueEqInt rv rev then .printed response
        else .revisionMismatch ("Revision '" ++ toString rev ++ "' does not exist")

/-- Effect surface of `orgs select`: the single config-store write. -/
inductive SelectEffect where
  | setDefaultOrganization (label : String)
deriving DecidableEq

/-- Terminal outcome of `orgs select`. -/
inductive SelectOutcome where
  | selected
  | notFound (msg : String)
  | unexpected (status : Nat)
deriving DecidableEq

/-- Modelled from the spec: `utils.error` and
`utils.set_default_organization` live in module `utils`, which is not
among the repository files.  Per the spec, "any fatal error terminates the
process with non-zero status after printing a diagnostic message", so a
branch that calls `utils.error` ends the command with its error outcome
and performs no further effect; `utils.set_default_organization(label)` is
the external config-store write, recorded as a `SelectEffect`.  The control
flow itself is orgs.py lines 141-156: fetch the organization; on a 404
`HTTPError` report not-found; on another `HTTPError` report the unexpected
error; otherwise persist the label as the default organization. -/
def orgsSelect (label : String) (fetched : Except Nat Resource) :
    List SelectEffect × SelectOutcome :=
  match fetched with
  | .ok _ => ([.setDefaultOrganization label], .selected)
  | .error status =>
    if status = 404 then
      ([], .notFound ("Could not find organization with label '" ++ label ++ "'."))
    else
      ([], .unexpected status)

/-- A collection-endpoint page as the `contexts` command reads it: the
`results` entries are taken by their `resultId` (the only field the
command reads), `none` when the payload lacks a `results` attribute;
`next` is `payload['links']['next']` when both `links` and `next` are
present, `none` otherwise. -/
structure Page where
  results : Option (List String)
  next : Option String
deriving DecidableEq

/-- A parsed GET response for a page request. -/
structure HttpResponse where
  status : Nat
  body : Page
deriving DecidableEq

/-- Builds the well-formed successful page response used by composition
lemmas: status 200, `results` present. -/
def okPage (items : List String) (next : Option String) : HttpResponse :=
  ⟨200, ⟨some items, next⟩⟩

/-- Observable state of the `--list` traversal: the page URLs requested so
far, the table rows added (one `resultId` per row), and the running
counter `count`. -/
structure TraverseState where
  requests : List String
  rows : List String
  count : Nat
deriving DecidableEq

/-- State at the start of the `while` loop: no request issued, empty
table, `count = 0`. -/
def initState : TraverseState := ⟨[], [], 0⟩

/-- How a traversal loop ends.  `outOfFuel` is an artifact of the fueled
embedding, distinct from every program outcome. -/
inductive TraverseOutcome where
  | ok
  | fatal (msg : String)
  | outOfFuel
deriving DecidableEq

/-- Body of `for context in context_list` in the `--list` branch:
`table.add_row([context['resultId']]); count += 1`. -/
def addRow (st : TraverseState) (resultId : String) : TraverseState :=
  { st with rows := st.rows ++ [resultId], count := st.count + 1 }

/-- The `--list` branch of `contexts` (commands.py lines 33-58): the
`while data_url is not None` loop.  `svc` is the service endpoint client
(`requests.get`); `cfgName` the selected deployment's name, used in the
malformed-payload diagnostic. -/
def contextsList (svc : String → HttpResponse) (cfgName : String) :
    Nat → Option String → TraverseState → TraverseState × TraverseOutcome
  | _, none, st => (st, .ok)
  | 0, some _, st => (st, .outOfFuel)
  | fuel + 1, some url, st =>
    let r := svc url
    let st1 := { st with requests := st.requests ++ [url] }
    if r.status ≠ 200 then
      (st1, .fatal ("Failed to list contexts from URL: " ++ url ++
        "\nRequest status: " ++ toString r.status))
    else
      match r.body.results with
      | none =>
        (st1, .fatal ("\nUnexpected payload return from Nexus " ++ cfgName ++
          " URL: " ++ url ++ "\nCould not find attribute 'results'."))
      | some items => contextsList svc cfgName fuel r.body.next (items.foldl addRow st1)

/-- A context's full representation fetched in the `--search` branch:
`dump` stands for the JSON text printed by `json.dumps(context_payload,
indent=2)`; `terms` is the `@context` entry when the payload has one. -/
structure DetailPayload where
  dump : String
  terms : Option (List String)
deriving DecidableEq

/-- A parsed GET response for a per-item detail request. -/
structure DetailResponse where
  status : Nat
  payload : DetailPayload
deriving DecidableEq

/-- One output unit of the `--search` branch: a pretty-printed context
payload, or one term of its embedded `@context` list. -/
inductive SearchOutput where
  | payloadDump (p : DetailPayload)
  | term (t : String)
deriving DecidableEq

/-- Observable state of the `--search` traversal: page GETs, per-item
GETs, and the printed output units in order. -/
structure SearchState where
  requests : List String
  detailRequests : List String
  outputs : List SearchOutput
deriving DecidableEq

/-- Body of `for context in context_list` in the `--search` branch
(commands.py lines 78-89).  `pageStatus` is `r.status_code` of the PAGE
response: the source tests `r.status_code`, not `r2.status_code`, in the
per-item check, and builds the error message from `r.status_code` too;
this embedding reproduces that literally.  Returns the state and the
fatal message if the check fired. -/
def searchItems (detailSvc : String → DetailResponse) (pageStatus : Nat) :
    List String → SearchState → SearchState × Option String
  | [], st => (st, none)
  | contextUrl :: rest, st =>
    let r2 := detailSvc contextUrl
    let st1 := { st with detailRequests := st.detailRequests ++ [contextUrl] }
    if pageStatus ≠ 200 then
      (st1, some ("Failed to get context: " ++ contextUrl ++
        "\nRequest status: " ++ toString pageStatus))
    else
      let st2 := { st1 with outputs := st1.outputs ++ [SearchOutput.payloadDump r2.payload] ++
        (match r2.payload.terms with
          | some ts => ts.map SearchOutput.term
          | none => []) }
      searchItems detailSvc pageStatus rest st2

/-- The `--search` branch of `contexts` (commands.py lines 61-94): the
same page loop as `--list`, with a secondary GET per item. -/
def contextsSearch (svc : String → HttpResponse) (detailSvc : String → DetailResponse)
    (cfgName : String) :
    Nat → Option String → SearchState → SearchState × TraverseOutcome
  | _, none, st => (st, .ok)
  | 0, some _, st => (st, .outOfFuel)
  | fuel + 1, some url, st =>
    let r := svc url
    let st1 := { st with requests := st.requests ++ [url] }
    if r.status ≠ 200 then
      (st1, .fatal ("Failed to list contexts from URL: " ++ url ++
        "\nRequest status: " ++ toString r.status))
    else
      match r.body.results with
      | none =>
        (st1, .fatal ("\nUnexpected payload return from Nexus " ++ cfgName ++
          " URL: " ++ url ++ "\nCould not find attribute 'results'."))
      | some items =>
        match searchItems detailSvc r.status items st1 with
        | (st2, some msg) => (st2, .fatal msg)
        | (st2, none) => contextsSearch svc detailSvc cfgName fuel r.body.next st2

/-- `Chain svc cur urls ks t`: starting from pointer `cur`, the service
serves a run of successful well-formed pages at the URLs `urls` with
result lists `ks`, after which the pointer is `t` (`none`: the last page
had no next link; `some u`: the last page linked to `u`). -/
inductive Chain (svc : String → HttpResponse) :
    Option String → List String → List (List String) → Option String → Prop
  | refl (t : Option String) : Chain svc t [] [] t
  | step {u : String} {k : List String} {t' : Option String}
      {urls : List String} {ks : List (List String)} {t : Option String}
      (h : svc u = okPage k t') (hc : Chain svc t' urls ks t) :
      Chain svc (some u) (u :: urls) (k :: ks) t

theorem charListLe_total : ∀ x y : List Char,
    charListLe x y = true ∨ charListLe y x = true
  | [], _ => Or.inl rfl
  | _ :: _, [] => Or.inr rfl
  | c :: cs, d :: ds => by
    by_cases h1 : c.toNat < d.toNat
    · exact Or.inl (by simp [charListLe, h1])
    · by_cases h2 : d.toNat < c.toNat
      · exact Or.inr (by simp [charListLe, h2])
      · cases charListLe_total cs ds with
        | inl h => exact Or.inl (by simp [charListLe, h1, h2, h])
        | inr h => exact Or.inr (by simp [charListLe, h1, h2, h])

theorem charListLe_trans : ∀ x y z : List Char,
    charListLe x y = true → charListLe y z = true → charListLe x z = true
  | [], _, _, _, _ => rfl
  | _ :: _, [], _, h1, _ => by simp [charListLe] at h1
  | _ :: _, _ :: _, [], _, h2 => by simp [charListLe] at h2
  | c :: cs, d :: ds, e :: es, h1, h2 => by
    simp only [charListLe] at h1 h2 ⊢
    by_cases hcd : c.toNat < d.toNat
    · by_cases hde : d.toNat < e.toNat
      · have hce : c.toNat < e.toNat := Nat.lt_trans hcd hde
        simp [hce]
      · by_cases hed : e.toNat < d.toNat
        · simp [hde, hed] at h2
        · have hce : c.toNat < e.toNat := by omega
          simp [hce]
    · by_cases hdc : d.toNat < c.toNat
      · simp [hcd, hdc] at h1
      · by_cases hde : d.toNat < e.toNat
        · have hce : c.toNat < e.toNat := by omega
          simp [hce]
        · by_cases hed : e.toNat < d.toNat
          · simp [hde, hed] at h2
          · have h1' : charListLe cs ds = true := by simpa [hcd, hdc] using h1
            have h2' : charListLe ds es = true := by simpa [hde, hed] using h2
            have hce : ¬ c.toNat < e.toNat := by omega
            have hec : ¬ e.toNat < c.toNat := by omega
            simp [hce, hec, charListLe_trans cs ds es h1' h2']

theorem charListLe_antisymm : ∀ x y : List Char,
    charListLe x y = true → charListLe y x = true → x = y
  | [], [], _, _ => rfl
  | [], _ :: _, _, h2 => by simp [charListLe] at h2
  | _ :: _, [], h1, _ => by simp [charListLe] at h1
  | c :: cs, d :: ds, h1, h2 => by
    simp only [charListLe] at h1 h2
    by_cases hcd : c.toNat < d.toNat
    · have hdc : ¬ d.toNat < c.toNat := by omega
      simp [hcd, hdc] at h2
    · by_cases hdc : d.toNat < c.toNat
      · simp [hcd, hdc] at h1
      · have hceq : c.toNat = d.toNat := by omega
        have hc : c = d := Char.eq_of_val_eq (UInt32.ext hceq)
        have h1' : charListLe cs ds = true := by simpa [hcd, hdc] using h1
        have h2' : charListLe ds cs = true := by simpa [hcd, hdc] using h2
        rw [hc, charListLe_antisymm cs ds h1' h2']

theorem strLe_antisymm {a b : String} (h1 : strLe a b = true)
    (h2 : strLe b a = true) : a = b := by
  cases a with
  | mk da =>
    cases b with
    | mk db => exact congrArg String.mk (charListLe_antisymm da db h1 h2)

instance : IsTotal (String × JValue) keyLe := ⟨fun a b => charListLe_total a.1.data b.1.data⟩

instance : IsTrans (String × JValue) keyLe :=
  ⟨fun a b c h1 h2 => charListLe_trans a.1.data b.1.data c.1.data h1 h2⟩

/-- Strict key order on dict items: below and with a different key. -/
def keyLt (a b : String × JValue) : Prop := keyLe a b ∧ a.1 ≠ b.1

instance : IsAntisymm (String × JValue) keyLt :=
  ⟨fun _ _ h1 h2 => absurd (strLe_antisymm h1.1 h2.1) h1.2⟩

theorem sortItems_perm (d : Resource) : (sortItems d).Perm d :=
  List.perm_insertionSort keyLe d

theorem sortItems_sorted (d : Resource) : List.Sorted keyLe (sortItems d) :=
  List.sorted_insertionSort keyLe d

/-- A key-sorted item list with pairwise-distinct keys is strictly sorted. -/
theorem sorted_keyLt_of_sorted_keyLe {d : Resource} (hs : List.Sorted keyLe d)
    (hnd : (d.map Prod.fst).Nodup) : List.Sorted keyLt d := by
  have hne : List.Pairwise (fun a b : String × JValue => a.1 ≠ b.1) d :=
    List.pairwise_map.mp hnd
  exact (hs.and hne).imp fun h => ⟨h.1, h.2⟩

/-- Sorting by key is canonical on dicts: two item lists with the same
key-value bindings (and unique keys) sort to the same list. -/
theorem sortItems_eq_of_perm {d1 d2 : Resource} (hp : d1.Perm d2)
    (hnd : (d2.map Prod.fst).Nodup) : sortItems d1 = sortItems d2 := by
  have p : (sortItems d1).Perm (sortItems d2) :=
    (sortItems_perm d1).trans (hp.trans (sortItems_perm d2).symm)
  have hnd1 : ((sortItems d1).map Prod.fst).Nodup :=
    (((sortItems_perm d1).trans hp).map Prod.fst).nodup_iff.mpr hnd
  have hnd2 : ((sortItems d2).map Prod.fst).Nodup :=
    ((sortItems_perm d2).map Prod.fst).nodup_iff.mpr hnd
  exact List.eq_of_perm_of_sorted p
    (sorted_keyLt_of_sorted_keyLe (sortItems_sorted d1) hnd1)
    (sorted_keyLt_of_sorted_keyLe (sortItems_sorted d2) hnd2)

/-- The canonical fingerprint depends only on the dict's bindings, not on
their insertion order. -/
theorem canonicalFingerprint_eq_of_perm {d1 d2 : Resource} (hp : d1.Perm d2)
    (hnd : (d2.map Prod.fst).Nodup) :
    canonicalFingerprint d1 = canonicalFingerprint d2 :=
  congrArg jsonDumps (sortItems_eq_of_perm hp hnd)

/-- Dict assignment leaves every other key's binding unchanged. -/
theorem lookupKey_setKey_ne (k k' : String) (v : JValue) (d : Resource)
    (h : k' ≠ k) : lookupKey k' (setKey k v d) = lookupKey k' d := by
  induction d with
  | nil =>
    have hk' : ¬ (k = k') := fun hh => h hh.symm
    simp [setKey, lookupKey, hk']
  | cons a rest ih =>
    by_cases hk : a.1 = k
    · have hk' : ¬ (k = k') := fun hh => h hh.symm
      simp [setKey, hk, lookupKey, hk']
    · simp only [setKey, hk, if_false]
      by_cases hk2 : a.1 = k'
      · simp [lookupKey, hk2]
      · simp [lookupKey, hk2, ih]

/-- The `--list` inner `for` loop over a page's results appends one row
per item and counts each one. -/
theorem foldl_addRow (items : List String) (st : TraverseState) :
    List.foldl addRow st items =
      { st with rows := st.rows ++ items, count := st.count + items.length } := by
  induction items generalizing st with
  | nil => simp
  | cons a rest ih =>
    rw [List.foldl_cons, ih]
    simp [addRow, List.append_assoc]
    omega

/-- Running the page loop through a run of successful pages: the pointer
advances to the run's tail, each page's URL is requested once, and the
page results are appended in page order, counted exactly. -/
theorem contextsList_chain (svc : String → HttpResponse) (cfgName : String)
    {cur : Option String} {urls : List String} {ks : List (List String)}
    {t : Option String} (hc : Chain svc cur urls ks t) :
    ∀ (fuel : Nat) (st : TraverseState), urls.length ≤ fuel →
      contextsList svc cfgName fuel cur st =
      contextsList svc cfgName (fuel - urls.length) t
        { requests := st.requests ++ urls, rows := st.rows ++ ks.flatten,
          count := st.count + ks.flatten.length } := by
  induction hc with
  | refl t =>
    intro fuel st _
    simp
  | @step u k t' urls ks t h hc ih =>
    intro fuel st hf
    cases fuel with
    | zero => exact absurd hf (by simp)
    | succ f =>
      have hstep : contextsList svc cfgName (f + 1) (some u) st =
          contextsList svc cfgName f t' (List.foldl addRow
            { st with requests := st.requests ++ [u] } k) := by
        simp [contextsList, h, okPage]
      rw [hstep, foldl_addRow,
        ih f _ (by simpa using Nat.le_of_succ_le_succ hf)]
      have hfuel : f + 1 - (u :: urls).length = f - urls.length := by
        simp [Nat.succ_sub_succ]
      rw [hfuel]
      congr 1
      simp [List.append_assoc]
      omega

/-- Sample fetched organization used by the witnesses. -/
def sampleOrg : Resource :=
  [("_rev", .int 3), ("name", .str "A"), ("description", .str "B"),
   ("@id", .str "http://nexus/org1"), ("_deprecated", .bool false)]

/-- C1: an update whose derived new state has the same canonical
fingerprint as the fetched state — in particular one whose new state has
the very same bindings as the current state — issues no PUT call and
reports the no-change outcome. -/
theorem update_noop_on_equal_fingerprint (label : String) (data : Resource)
    (payloadOpt : Option Resource) (name description : Option String)
    (edited : Resource) (rv : JValue)
    (hrev : lookupKey "_rev" data = some rv)
    (h : canonicalFingerprint (deriveNewState data payloadOpt name description edited) =
          canonicalFingerprint data ∨
        ((deriveNewState data payloadOpt name description edited).Perm data ∧
          (data.map Prod.fst).Nodup)) :
    orgsUpdate label (.ok data) payloadOpt name description edited =
      ([.fetchOrg label], .noChange) := by
  have hfp : canonicalFingerprint (deriveNewState data payloadOpt name description edited) =
      canonicalFingerprint data := by
    cases h with
    | inl h => exact h
    | inr h => exact canonicalFingerprint_eq_of_perm h.1 h.2
  simp [orgsUpdate, hrev, hfp]

/-- C1 witness: updating with `name="A"`, `description="B"` identical to
the fetched values makes zero PUT calls and reports no change. -/
theorem update_noop_on_equal_fingerprint_witness :
    orgsUpdate "org1" (.ok sampleOrg) none (some "A") (some "B") [] =
      ([.fetchOrg "org1"], .noChange) :=
  update_noop_on_equal_fingerprint "org1" sampleOrg none (some "A") (some "B") []
    (.int 3) (by rfl) (.inl (by rfl))

/-- C5: an update whose derived new state's fingerprint differs from the
fetched state's fingerprint issues exactly one PUT, carrying the revision
captured from the resource fetched at the start. -/
theorem update_put_on_diff (label : String) (data : Resource)
    (payloadOpt : Option Resource) (name description : Option String)
    (edited : Resource) (rv : JValue)
    (hrev : lookupKey "_rev" data = some rv)
    (h : canonicalFingerprint (deriveNewState data payloadOpt name description edited) ≠
        canonicalFingerprint data) :
    orgsUpdate label (.ok data) payloadOpt name description edited =
      ([.fetchOrg label,
        .putOrg (deriveNewState data payloadOpt name description edited) rv], .updated) := by
  have hne : ¬ (canonicalFingerprint data =
      canonicalFingerprint (deriveNewState data payloadOpt name description edited)) :=
    fun hh => h hh.symm
  simp [orgsUpdate, hrev, hne]

/-- C5 witness: updating with `name="A2"` (different from the fetched
`"A"`) makes exactly one PUT carrying the fetched revision 3. -/
theorem update_put_on_diff_witness :
    orgsUpdate "org1" (.ok sampleOrg) none (some "A2") none [] =
      ([.fetchOrg "org1",
        .putOrg [("_rev", .int 3), ("name", .str "A2"), ("description", .str "B"),
          ("@id", .str "http://nexus/org1"), ("_deprecated", .bool false)] (.int 3)],
       .updated) :=
  update_put_on_diff "org1" sampleOrg none (some "A2") none [] (.int 3)
    (by rfl) (by decide)

/-- Raw replacement payload used by the C3 witness. -/
def payloadZ : Resource := [("_rev", .int 3), ("name", .str "Z")]

/-- C3: when a raw replacement payload is supplied, the derived new state
is the payload's content, even when name/description overrides are also
supplied; the PUT (when the fingerprints differ) carries the payload. -/
theorem update_payload_precedence (label : String) (data p : Resource)
    (name description : Option String) (edited : Resource) (rv : JValue)
    (hrev : lookupKey "_rev" data = some rv)
    (_hover : name.isSome ∨ description.isSome) :
    deriveNewState data (some p) name description edited = p ∧
    (canonicalFingerprint p ≠ canonicalFingerprint data →
      orgsUpdate label (.ok data) (some p) name description edited =
        ([.fetchOrg label, .putOrg p rv], .updated)) := by
  have hd : deriveNewState data (some p) name description edited = p := by
    simp [deriveNewState]
  refine ⟨hd, fun h => ?_⟩
  have hne : ¬ (canonicalFingerprint data = canonicalFingerprint p) := fun hh => h hh.symm
  simp [orgsUpdate, hrev, hd, hne]

/-- C3 witness: with both `--data` and `--name` supplied, the submitted
state is the raw payload and the `--name` override is ignored. -/
theorem update_payload_precedence_witness :
    deriveNewState sampleOrg (some payloadZ) (some "Q") none [] = payloadZ ∧
    (canonicalFingerprint payloadZ ≠ canonicalFingerprint sampleOrg →
      orgsUpdate "org1" (.ok sampleOrg) (some payloadZ) (some "Q") none [] =
        ([.fetchOrg "org1", .putOrg payloadZ (.int 3)], .updated)) :=
  update_payload_precedence "org1" sampleOrg payloadZ (some "Q") none [] (.int 3)
    (by rfl) (Or.inl (by rfl))

/-- C10: an update using only name/description field overrides carries
every other field of the fetched resource (identifier, label, revision,
deprecation flag, unknown extras) unchanged into the derived new state,
and the PUT (when fired) submits exactly that state. -/
theorem update_overrides_preserve_other_fields (label : String) (data : Resource)
    (name description : Option String) (edited : Resource) (rv : JValue) (k : String)
    (hrev : lookupKey "_rev" data = some rv)
    (hover : name.isSome ∨ description.isSome)
    (hk1 : k ≠ "name") (hk2 : k ≠ "description") :
    lookupKey k (deriveNewState data none name description edited) = lookupKey k data ∧
    (canonicalFingerprint (deriveNewState data none name description edited) ≠
        canonicalFingerprint data →
      orgsUpdate label (.ok data) none name description edited =
        ([.fetchOrg label,
          .putOrg (deriveNewState data none name description edited) rv], .updated)) := by
  constructor
  · match name, description, hover with
    | some n, some s, _ =>
      rw [deriveNewState]
      simp only [Option.isNone_none, Option.isSome_some, Bool.true_and, Bool.or_self,
        if_pos]
      rw [lookupKey_setKey_ne _ _ _ _ hk2, lookupKey_setKey_ne _ _ _ _ hk1]
    | some n, none, _ =>
      rw [deriveNewState]
      simp only [Option.isNone_none, Option.isSome_some, Option.isSome_none,
        Bool.true_and, Bool.or_false, if_pos]
      rw [lookupKey_setKey_ne _ _ _ _ hk1]
    | none, some s, _ =>
      rw [deriveNewState]
      simp only [Option.isNone_none, Option.isSome_some, Option.isSome_none,
        Bool.true_and, Bool.false_or, if_pos]
      rw [lookupKey_setKey_ne _ _ _ _ hk2]
    | none, none, hov => simp at hov
  · intro h
    have hne : ¬ (canonicalFingerprint data =
        canonicalFingerprint (deriveNewState data none name description edited)) :=
      fun hh => h hh.symm
    simp [orgsUpdate, hrev, hne]

/-- C10 witness: updating `name` only leaves the `@id` binding of the
fetched resource unchanged in the derived state, and the PUT carries that
state. -/
theorem update_overrides_preserve_other_fields_witness :
    lookupKey "@id" (deriveNewState sampleOrg none (some "A2") none []) =
      lookupKey "@id" sampleOrg ∧
    (canonicalFingerprint (deriveNewState sampleOrg none (some "A2") none []) ≠
        canonicalFingerprint sampleOrg →
      orgsUpdate "org1" (.ok sampleOrg) none (some "A2") none [] =
        ([.fetchOrg "org1",
          .putOrg (deriveNewState sampleOrg none (some "A2") none []) (.int 3)],
         .updated)) :=
  update_overrides_preserve_other_fields "org1" sampleOrg (some "A2") none [] (.int 3)
    "@id" (by rfl) (Or.inl (by rfl)) (by decide) (by decide)

/-- C6: fetching with an explicit revision whose value differs from the
returned resource's `_rev` fails with the revision-mismatch error, whose
message mentions the requested revision number. -/
theorem fetch_revision_mismatch (response : Resource) (actual req : Int)
    (hrev : lookupKey "_rev" response = some (.int actual))
    (hne : actual ≠ req) :
    ∃ msg, orgsFetch (.ok response) (some req) = .revisionMismatch msg ∧
      ∃ a b, msg = a ++ toString req ++ b := by
  refine ⟨"Revision '" ++ toString req ++ "' does not exist", ?_,
    "Revision '", "' does not exist", rfl⟩
  have hbeq : (actual == req) = false := beq_eq_false_iff_ne.mpr hne
  simp [orgsFetch, hrev, jvalueEqInt, hbeq]

/-- C6 witness: requesting revision 5 of a resource whose returned `_rev`
is 3 yields the mismatch error mentioning 5. -/
theorem fetch_revision_mismatch_witness :
    ∃ msg, orgsFetch (.ok [("_rev", JValue.int 3)]) (some 5) = .revisionMismatch msg ∧
      ∃ a b, msg = a ++ toString (5 : Int) ++ b :=
  fetch_revision_mismatch [("_rev", .int 3)] 3 5 (by rfl) (by decide)

/-- C7: selecting a label whose existence fetch raises a 404 fails with
the not-found error and performs no config-store write: the effect list is
empty, so no default organization is persisted. -/
theorem select_not_found_no_write (label : String) :
    orgsSelect label (.error 404) =
      ([], .notFound ("Could not find organization with label '" ++ label ++ "'.")) := by
  simp [orgsSelect]

/-- C4: a traversal over a service serving a run of successful pages that
ends without a next link yields exactly the concatenation of the pages'
results, in page order with intra-page order preserved, requests each page
URL once, and its running counter equals the total item count. -/
theorem contexts_list_complete (svc : String → HttpResponse) (cfgName u0 : String)
    (urls : List String) (ks : List (List String)) (fuel : Nat)
    (hc : Chain svc (some u0) urls ks none) (hf : urls.length ≤ fuel) :
    contextsList svc cfgName fuel (some u0) initState =
      ({ requests := urls, rows := ks.flatten,
         count := (ks.map List.length).sum }, .ok) := by
  rw [contextsList_chain svc cfgName hc fuel initState hf]
  simp [contextsList, initState, List.length_flatten]

/-- C4 witness: two pages with two and one item yield the three items in
order and a total count of 3. -/
def c4Svc : String → HttpResponse := fun u =>
  if u = "http://nexus/v0/contexts" then
    okPage ["http://nexus/ctx/a", "http://nexus/ctx/b"] (some "http://nexus/v0/contexts?from=2")
  else if u = "http://nexus/v0/contexts?from=2" then
    okPage ["http://nexus/ctx/c"] none
  else ⟨404, ⟨none, none⟩⟩

theorem contexts_list_complete_witness :
    contextsList c4Svc "dev" 2 (some "http://nexus/v0/contexts") initState =
      ({ requests := ["http://nexus/v0/contexts", "http://nexus/v0/contexts?from=2"],
         rows := ["http://nexus/ctx/a", "http://nexus/ctx/b", "http://nexus/ctx/c"],
         count := 3 }, .ok) :=
  contexts_list_complete c4Svc "dev" "http://nexus/v0/contexts"
    ["http://nexus/v0/contexts", "http://nexus/v0/contexts?from=2"]
    [["http://nexus/ctx/a", "http://nexus/ctx/b"], ["http://nexus/ctx/c"]] 2
    (Chain.step (by decide) (Chain.step (by decide) (Chain.refl none))) (by decide)

/-- C8: when a page GET after a run of successful pages returns a
non-success status, the items of the earlier pages have all been yielded,
the failing URL is the last one requested (no further page is attempted),
and the traversal ends fatally with a message containing the failing
page's URL and the status code. -/
theorem contexts_list_fatal_mid_traversal (svc : String → HttpResponse)
    (cfgName : String) (cur : Option String) (urls : List String)
    (ks : List (List String)) (badUrl : String) (fuel : Nat)
    (hc : Chain svc cur urls ks (some badUrl))
    (hbad : (svc badUrl).status ≠ 200) (hf : urls.length + 1 ≤ fuel) :
    ∃ msg,
      contextsList svc cfgName fuel cur initState =
        ({ requests := urls ++ [badUrl], rows := ks.flatten,
           count := (ks.map List.length).sum }, .fatal msg) ∧
      (∃ a b, msg = a ++ badUrl ++ b) ∧
      (∃ a b, msg = a ++ toString (svc badUrl).status ++ b) := by
  refine ⟨"Failed to list contexts from URL: " ++ badUrl ++
      "\nRequest status: " ++ toString (svc badUrl).status, ?_,
    ⟨"Failed to list contexts from URL: ",
      "\nRequest status: " ++ toString (svc badUrl).status, ?_⟩,
    ⟨"Failed to list contexts from URL: " ++ badUrl ++ "\nRequest status: ", "", ?_⟩⟩
  · rw [contextsList_chain svc cfgName hc fuel initState (by omega)]
    have hrest : fuel - urls.length = (fuel - urls.length - 1) + 1 := by omega
    rw [hrest]
    simp [contextsList, initState, hbad, List.length_flatten]
  · simp [String.append_assoc]
  · simp [String.append_assoc]

/-- C8 witness: page 1 succeeds with one item, page 2 returns 500; the
item of page 1 was yielded, page 2 is the last request, and the error
message carries its URL and status. -/
def c8Svc : String → HttpResponse := fun u =>
  if u = "http://nexus/v0/contexts" then
    okPage ["http://nexus/ctx/a"] (some "http://nexus/v0/contexts?from=2")
  else ⟨500, ⟨none, none⟩⟩

theorem contexts_list_fatal_mid_traversal_witness :
    ∃ msg,
      contextsList c8Svc "dev" 3 (some "http://nexus/v0/contexts") initState =
        ({ requests := ["http://nexus/v0/contexts", "http://nexus/v0/contexts?from=2"],
           rows := ["http://nexus/ctx/a"], count := 1 }, .fatal msg) ∧
      (∃ a b, msg = a ++ "http://nexus/v0/contexts?from=2" ++ b) ∧
      (∃ a b, msg = a ++ toString (c8Svc "http://nexus/v0/contexts?from=2").status ++ b) :=
  contexts_list_fatal_mid_traversal c8Svc "dev" (some "http://nexus/v0/contexts")
    ["http://nexus/v0/contexts"] [["http://nexus/ctx/a"]]
    "http://nexus/v0/contexts?from=2" 3
    (Chain.step (by decide) (Chain.refl (some "http://nexus/v0/contexts?from=2")))
    (by decide) (by decide)

/-- C9: a page whose payload has no next link ends the traversal normally
right after its items are yielded: exactly one further request (that
page's own URL) is issued, whatever fuel remains. -/
theorem contexts_list_stops_without_next (svc : String → HttpResponse)
    (cfgName url : String) (items : List String) (fuel : Nat) (st : TraverseState)
    (h : svc url = okPage items none) :
    contextsList svc cfgName (fuel + 1) (some url) st =
      (⟨st.requests ++ [url], st.rows ++ items, st.count + items.length⟩, .ok) := by
  simp [contextsList, h, okPage, foldl_addRow]

/-- C9 witness: a single page without a next link ends the traversal with
its one item yielded and no second request, although fuel remains. -/
def c9Svc : String → HttpResponse := fun _ => okPage ["http://nexus/ctx/x"] none

theorem contexts_list_stops_without_next_witness :
    contextsList c9Svc "dev" 5 (some "http://nexus/v0/contexts") initState =
      ({ requests := ["http://nexus/v0/contexts"], rows := ["http://nexus/ctx/x"],
         count := 1 }, .ok) :=
  contexts_list_stops_without_next c9Svc "dev" "http://nexus/v0/contexts"
    ["http://nexus/ctx/x"] 4 initState (by decide)

/-- Page service for the C2 evidence: one successful page listing two
context URLs, no next link. -/
def c2PageSvc : String → HttpResponse := fun u =>
  if u = "http://nexus/v0/contexts" then
    okPage ["http://nexus/ctx/a", "http://nexus/ctx/b"] none
  else ⟨404, ⟨none, none⟩⟩

/-- Detail service for the C2 evidence: the GET for context `a` returns
status 500, the GET for context `b` succeeds. -/
def c2DetailSvc : String → DetailResponse := fun u =>
  if u = "http://nexus/ctx/a" then ⟨500, ⟨"internal server error", none⟩⟩
  else ⟨200, ⟨"context b payload", some ["schema:name"]⟩⟩

/-- C2 evidence: the search traversal at the failing input.  The detail
GET for context `a` returns 500, yet the per-item check (commands.py line
81) tests `r.status_code` — the page response, already known to be 200 —
instead of `r2.status_code`, so no error fires: context `a`'s payload is
printed, context `b` is still fetched and printed, and the traversal ends
with the ok outcome instead of aborting. -/
theorem contexts_search_ignores_item_status :
    contextsSearch c2PageSvc c2DetailSvc "dev" 1 (some "http://nexus/v0/contexts")
      ⟨[], [], []⟩ =
      (⟨["http://nexus/v0/contexts"],
        ["http://nexus/ctx/a", "http://nexus/ctx/b"],
        [.payloadDump ⟨"internal server error", none⟩,
         .payloadDump ⟨"context b payload", some ["schema:name"]⟩,
         .term "schema:name"]⟩, .ok) := by
  decide

end NexusCli
